import Mathlib

/-!
# Verification of the `VoiceChangerEngine` core of `voz.py`

Shallow embedding of the speech-capture → segmentation → synthesis →
playback pipeline implemented by `VoiceChangerEngine` in `src/voz.py`.

* Times (`time.time()` values, backoff durations, thresholds) are modelled
  as rationals (`ℚ`); the code only compares and subtracts them.
* The ASR side (`asr_worker`, `_emit_phrase`, `_reset_partials`,
  `_finalize_by_silence`) is modelled as a state machine over `AsrState`,
  driven by recognition events.  The external recognizer is exogenous: each
  event carries the text the recognizer would return, and the model counts
  `FinalResult()` calls.
* The TTS side (`tts_worker`, `_tts_with_retries`) is modelled as a
  trace-producing function: each per-phrase iteration yields the list of
  observable actions (capture suspend, synthesis attempts, backoff sleeps,
  playback, error logs, capture resume) it performs.
* The lifecycle (`start`, `stop`, `start_input`, `stop_input`) is modelled
  over `EngineState`; `start`'s possible exception is an `Except` value.
-/

namespace Voz

/-- Wall-clock instants and durations (`time.time()` floats in the source). -/
abbrev Time := ℚ

/-- Python's `str.strip()`: remove leading and trailing whitespace. -/
def pyStrip (s : String) : String :=
  String.mk (((s.data.dropWhile Char.isWhitespace).reverse.dropWhile
    Char.isWhitespace).reverse)

/-! ## Segmentation (ASR) side: `asr_worker` and its helpers -/

/-- Phrasing parameters of `VoiceChangerEngine.__init__`
(`min_phrase_len`, `print_partials`, `silence_finalize_sec`,
`partial_throttle_sec`). -/
structure AsrConfig where
  minPhraseLen : Nat
  imprimirParciales : Bool
  silenceFinalizeSec : Time
  parcialThrottleSec : Time
deriving DecidableEq

/-- Per-segment state: `_last_partial`, `_last_partial_time`,
`_last_activity_time`, `_speech_seen_this_segment`. -/
structure SegState where
  ultimoParcial : String
  ultimoParcialTime : Time
  lastActivityTime : Time
  speechSeen : Bool
deriving DecidableEq

/-- Observable state of the ASR side: segment state, the phrase queue
(`phrase_q`, FIFO: new phrases appended at the end), the cumulative
arguments of the `on_final` and `on_partial` callbacks, and the number of
`recognizer.FinalResult()` calls made. -/
structure AsrState where
  seg : SegState
  phraseQ : List String
  finalsCb : List String
  parcialesCb : List String
  finalResultCalls : Nat
deriving DecidableEq

/-- `VoiceChangerEngine._emit_phrase`: discard texts shorter than
`min_phrase_len`; otherwise invoke `on_final` and enqueue to `phrase_q`. -/
def emitPhrase (cfg : AsrConfig) (s : AsrState) (text : String) : AsrState :=
  if text.length < cfg.minPhraseLen then s
  else { s with finalsCb := s.finalsCb ++ [text],
                phraseQ := s.phraseQ ++ [text] }

/-- `VoiceChangerEngine._reset_partials`: clear the last partial and the
speech-seen flag, set the activity time to now. -/
def resetParciales (s : AsrState) (now : Time) : AsrState :=
  { s with seg := { s.seg with ultimoParcial := "", speechSeen := false,
                               lastActivityTime := now } }

/-- `VoiceChangerEngine._finalize_by_silence` at instant `now`, where
`finText` is the raw `"text"` field the recognizer's `FinalResult()` would
return: do nothing unless speech was seen this segment and at least
`silence_finalize_sec` elapsed since the last activity; otherwise force the
final result, emit its stripped text if non-empty, and reset the segment. -/
def finalizeBySilence (cfg : AsrConfig) (s : AsrState) (now : Time)
    (finText : String) : AsrState :=
  if s.seg.speechSeen = false then s
  else if cfg.silenceFinalizeSec ≤ now - s.seg.lastActivityTime then
    let s1 := { s with finalResultCalls := s.finalResultCalls + 1 }
    let fin := pyStrip finText
    let s2 := if fin ≠ "" then emitPhrase cfg s1 fin else s1
    resetParciales s2 now
  else s

/-- The `else` branch of `asr_worker`'s accept loop, for a partial result
`p` read at instant `now` (`finText` is the recognizer's pending final
text, consulted only when `p` is empty): a non-empty partial marks speech
seen and refreshes the activity time, and is surfaced to `on_partial` only
if printing is on, the text differs from the last surfaced partial, and at
least `partial_throttle_sec` elapsed since the last surfaced partial.  An
empty partial triggers the silence-finalization check. -/
def procesarParcial (cfg : AsrConfig) (s : AsrState) (now : Time)
    (p : String) (finText : String) : AsrState :=
  if p ≠ "" then
    let s1 : AsrState :=
      { s with seg := { s.seg with speechSeen := true,
                                   lastActivityTime := now } }
    if cfg.imprimirParciales = true ∧ p ≠ s1.seg.ultimoParcial ∧
        cfg.parcialThrottleSec ≤ now - s1.seg.ultimoParcialTime then
      { s1 with parcialesCb := s1.parcialesCb ++ [p],
                seg := { s1.seg with ultimoParcial := p,
                                     ultimoParcialTime := now } }
    else s1
  else finalizeBySilence cfg s now finText

/-- One iteration of `asr_worker`'s loop, as seen by the engine state.
`finalRes raw now`: `AcceptWaveform` returned true and `Result()` carried
text `raw`.  `parcialRes p finText now`: `AcceptWaveform` returned false
and `PartialResult()` carried `p`.  `colaVacia finText now`: the frame
queue timed out (`queue.Empty`). -/
inductive AsrEvent where
  | finalRes (raw : String) (now : Time)
  | parcialRes (p : String) (finText : String) (now : Time)
  | colaVacia (finText : String) (now : Time)
deriving DecidableEq

/-- One iteration of the `asr_worker` loop body. -/
def asrStep (cfg : AsrConfig) (s : AsrState) : AsrEvent → AsrState
  | AsrEvent.finalRes raw now =>
    let text := pyStrip raw
    let s1 := if text ≠ "" then emitPhrase cfg s text else s
    resetParciales s1 now
  | AsrEvent.parcialRes p finText now => procesarParcial cfg s now p finText
  | AsrEvent.colaVacia finText now => finalizeBySilence cfg s now finText

/-- The `asr_worker` loop over a finite sequence of events. -/
def asrRun (cfg : AsrConfig) (s : AsrState) (evs : List AsrEvent) : AsrState :=
  evs.foldl (asrStep cfg) s

/-- The code after `asr_worker`'s loop (lines 198–200): one final
`FinalResult()` call, whose stripped text is emitted if non-empty. -/
def asrEpilogue (cfg : AsrConfig) (s : AsrState) (finText : String) : AsrState :=
  let s1 := { s with finalResultCalls := s.finalResultCalls + 1 }
  let fin := pyStrip finText
  if fin ≠ "" then emitPhrase cfg s1 fin else s1

/-! ## Synthesis & playback side: `tts_worker` and `_tts_with_retries` -/

/-- Observable actions of one `tts_worker` iteration.  `duckSuspend` is the
`stop_input()` ducking call; `synthCall n` the n-th (1-based) synthesis
attempt; `logRetry n` the `"[TTS] Reintento n"` log; `sleep d` the
`time.sleep(d)` backoff; `logFfmpeg` the FFmpeg-missing error log; `play`
the blocking playback; `logError` the `"[TTS ERROR]"` log of a caught
exception; `resumeCapture` the `start_input()` call of the `finally`
block. -/
inductive TtsAction where
  | duckSuspend
  | synthCall (n : Nat)
  | logRetry (n : Nat)
  | sleep (d : Time)
  | logFfmpeg
  | play
  | logError
  | resumeCapture
deriving DecidableEq

/-- TTS parameters: `ducking`, `tts_max_retries`, `tts_backoff`. -/
structure TtsConfig where
  ducking : Bool
  ttsMaxRetries : Nat
  ttsBackoff : Time

/-- Exogenous environment of one `tts_worker` iteration: the dequeued
text, whether FFmpeg is on PATH, which synthesis attempts succeed
(`synthOk n` = the n-th `edge-tts` round-trip succeeds), whether decode +
playback completes without an exception, and whether the stop signal has
been raised by the time the `finally` block runs. -/
structure PhraseEnv where
  text : String
  ffmpegAvailable : Bool
  synthOk : Nat → Bool
  playOk : Bool
  stopAtFinally : Bool

/-- The retry loop of `_tts_with_retries`, attempting attempts
`n, n+1, …` while `r` attempts remain: each failure logs, then sleeps
`tts_backoff * attempt_number`; success returns immediately.  The Bool is
true iff some attempt succeeded (false = `RuntimeError` raised). -/
def ttsAttemptsFrom (cfg : TtsConfig) (f : Nat → Bool) :
    Nat → Nat → List TtsAction × Bool
  | _, 0 => ([], false)
  | n, r + 1 =>
    if f n then ([TtsAction.synthCall n], true)
    else
      let rest := ttsAttemptsFrom cfg f (n + 1) r
      (TtsAction.synthCall n :: TtsAction.logRetry n ::
        TtsAction.sleep (cfg.ttsBackoff * (n : Time)) :: rest.1, rest.2)

/-- `VoiceChangerEngine._tts_with_retries`: `for n in range(1,
tts_max_retries + 1)`. -/
def ttsWithRetries (cfg : TtsConfig) (f : Nat → Bool) :
    List TtsAction × Bool :=
  ttsAttemptsFrom cfg f 1 cfg.ttsMaxRetries

/-- The `try`/`except` body of one `tts_worker` iteration (after ducking):
skip with an error log if FFmpeg is missing (`continue`); otherwise run the
synthesis retries; a raised `RuntimeError` (all retries exhausted) or an
exception during decode/playback is caught by the `except` clause, which
logs `[TTS ERROR]` once. -/
def bodyTrace (cfg : TtsConfig) (env : PhraseEnv) : List TtsAction :=
  if env.ffmpegAvailable = false then [TtsAction.logFfmpeg]
  else if (ttsWithRetries cfg env.synthOk).2 = false then
    (ttsWithRetries cfg env.synthOk).1 ++ [TtsAction.logError]
  else
    (ttsWithRetries cfg env.synthOk).1 ++
      (if env.playOk then [TtsAction.play]
       else [TtsAction.play, TtsAction.logError])

/-- One full `tts_worker` iteration for a dequeued `text`: empty text is
skipped before ducking (`if not text: continue`); otherwise ducking stops
capture, the body runs, and the `finally` block resumes capture iff ducking
is on and the stop signal is not set. -/
def handlePhrase (cfg : TtsConfig) (env : PhraseEnv) : List TtsAction :=
  if env.text = "" then []
  else
    (if cfg.ducking then [TtsAction.duckSuspend] else []) ++
    bodyTrace cfg env ++
    (if cfg.ducking ∧ env.stopAtFinally = false then [TtsAction.resumeCapture]
     else [])

/-- The `tts_worker` loop over a finite sequence of dequeued phrases. -/
def ttsWorker (cfg : TtsConfig) : List PhraseEnv → List TtsAction
  | [] => []
  | e :: es => handlePhrase cfg e ++ ttsWorker cfg es

/-- Number of actions in a trace satisfying `p`. -/
def countAct (p : TtsAction → Bool) (t : List TtsAction) : Nat :=
  (t.filter p).length

/-- Recognizer for the capture-resume action. -/
def isResumeCapture : TtsAction → Bool
  | TtsAction.resumeCapture => true
  | _ => false

/-- Recognizer for synthesis attempts. -/
def isSynthCall : TtsAction → Bool
  | TtsAction.synthCall _ => true
  | _ => false

/-- Recognizer for the `[TTS ERROR]` failure report. -/
def isLogError : TtsAction → Bool
  | TtsAction.logError => true
  | _ => false

/-! ## Engine lifecycle: `start`, `stop`, `start_input`, `stop_input` -/

/-- Lifecycle-relevant state of `VoiceChangerEngine`: the stop event, the
current input-stream handle (`stream_in`, identified by its creation
ordinal), how many input streams were ever opened, the two queues, whether
`self.model` / `self.recognizer` are loaded (non-`None`), and whether the
two worker threads were started. -/
structure EngineState where
  stopEvent : Bool
  streamIn : Option Nat
  streamsOpened : Nat
  audioQ : List Int
  phraseQL : List String
  modelLoaded : Bool
  recognizerLoaded : Bool
  tAsr : Bool
  tTts : Bool
deriving DecidableEq

/-- `VoiceChangerEngine.start_input`: unconditionally create and start a
new `InputStream` and store it in `stream_in` (there is no check of an
existing stream). -/
def startInput (s : EngineState) : EngineState :=
  { s with streamIn := some s.streamsOpened,
           streamsOpened := s.streamsOpened + 1 }

/-- `VoiceChangerEngine.stop_input`: if a stream handle is present, stop
and close it (exceptions swallowed) and clear the handle; otherwise do
nothing. -/
def stopInput (s : EngineState) : EngineState :=
  match s.streamIn with
  | none => s
  | some _ => { s with streamIn := none }

/-- The `while not q.empty(): q.get_nowait()` drain loop of `stop`. -/
def drain {α : Type} : List α → List α
  | [] => []
  | _ :: rest => drain rest

/-- `VoiceChangerEngine.stop`: set the stop event, stop the input stream
(exceptions swallowed), then drain both queues.  Every fallible call in the
source is wrapped in `try`/`except`, so the model is a total function. -/
def stopEngine (s : EngineState) : EngineState :=
  let s1 : EngineState := { s with stopEvent := true }
  let s2 := stopInput s1
  { s2 with audioQ := drain s2.audioQ, phraseQL := drain s2.phraseQL }

/-- `VoiceChangerEngine.start`: raise `RuntimeError("Modelo Vosk no
cargado.")` if the model or recognizer is not loaded, before touching any
state; otherwise clear the stop event, start capture, and spawn the ASR
and TTS threads.  The first component is the raised exception, if any; on
error the second component is the unchanged state. -/
def startEngine (s : EngineState) : Except String Unit × EngineState :=
  if s.modelLoaded = false ∨ s.recognizerLoaded = false then
    (Except.error "Modelo Vosk no cargado.", s)
  else
    let s1 : EngineState := { s with stopEvent := false }
    let s2 := startInput s1
    (Except.ok (), { s2 with tAsr := true, tTts := true })

/-! ## Expected traces of the retry loop -/

/-- The actions of one failed synthesis attempt `n`: the attempt, the
retry log, and the `tts_backoff * n` sleep. -/
def failBlock (cfg : TtsConfig) (n : Nat) : List TtsAction :=
  [TtsAction.synthCall n, TtsAction.logRetry n,
   TtsAction.sleep (cfg.ttsBackoff * (n : Time))]

/-- The trace of `r` consecutive failed attempts starting at attempt `n`. -/
def allFailTrace (cfg : TtsConfig) : Nat → Nat → List TtsAction
  | _, 0 => []
  | n, r + 1 => failBlock cfg n ++ allFailTrace cfg (n + 1) r

/-! ## Helper lemmas -/

theorem countAct_append (p : TtsAction → Bool) (a b : List TtsAction) :
    countAct p (a ++ b) = countAct p a + countAct p b := by
  simp [countAct, List.filter_append]

theorem countAct_resume_attempts (cfg : TtsConfig) (f : Nat → Bool) :
    ∀ r n, countAct isResumeCapture (ttsAttemptsFrom cfg f n r).1 = 0 := by
  intro r
  induction r with
  | zero => intro n; simp [ttsAttemptsFrom, countAct]
  | succ r ih =>
    intro n
    by_cases h : f n
    · simp [ttsAttemptsFrom, h, countAct, isResumeCapture]
    · simpa [ttsAttemptsFrom, h, countAct, isResumeCapture] using ih (n + 1)

theorem countAct_resume_bodyTrace (cfg : TtsConfig) (env : PhraseEnv) :
    countAct isResumeCapture (bodyTrace cfg env) = 0 := by
  have h1 : countAct isResumeCapture (ttsWithRetries cfg env.synthOk).1 = 0 :=
    countAct_resume_attempts cfg env.synthOk cfg.ttsMaxRetries 1
  unfold bodyTrace
  by_cases hf : env.ffmpegAvailable = false
  · rw [if_pos hf]; rfl
  · rw [if_neg hf]
    by_cases hr : (ttsWithRetries cfg env.synthOk).2 = false
    · rw [if_pos hr, countAct_append, h1]; rfl
    · rw [if_neg hr, countAct_append, h1]
      by_cases hp : env.playOk = true
      · rw [if_pos hp]; rfl
      · rw [if_neg hp]; rfl

theorem countAct_logError_allFail (cfg : TtsConfig) :
    ∀ r n, countAct isLogError (allFailTrace cfg n r) = 0 := by
  intro r
  induction r with
  | zero => intro n; simp [allFailTrace, countAct]
  | succ r ih =>
    intro n
    simpa [allFailTrace, failBlock, countAct, isLogError,
      List.filter_append] using ih (n + 1)

theorem countAct_synth_allFail (cfg : TtsConfig) :
    ∀ r n, countAct isSynthCall (allFailTrace cfg n r) = r := by
  intro r
  induction r with
  | zero => intro n; simp [allFailTrace, countAct]
  | succ r ih =>
    intro n
    have := ih (n + 1)
    simp [allFailTrace, failBlock, countAct, isSynthCall,
      List.filter_append] at this ⊢
    omega

theorem countAct_synth_attempts_le (cfg : TtsConfig) (f : Nat → Bool) :
    ∀ r n, countAct isSynthCall (ttsAttemptsFrom cfg f n r).1 ≤ r := by
  intro r
  induction r with
  | zero => intro n; simp [ttsAttemptsFrom, countAct]
  | succ r ih =>
    intro n
    by_cases h : f n
    · simp [ttsAttemptsFrom, h, countAct, isSynthCall]
    · have := ih (n + 1)
      simp [ttsAttemptsFrom, h, countAct, isSynthCall] at this ⊢
      omega

theorem ttsAttemptsFrom_all_fail (cfg : TtsConfig) (f : Nat → Bool) :
    ∀ r n, (∀ i, n ≤ i → i < n + r → f i = false) →
    ttsAttemptsFrom cfg f n r = (allFailTrace cfg n r, false) := by
  intro r
  induction r with
  | zero => intro n _; rfl
  | succ r ih =>
    intro n h
    have hn : f n = false := h n le_rfl (by omega)
    have hrec := ih (n + 1) (fun i h1 h2 => h i (by omega) (by omega))
    simp [ttsAttemptsFrom, hn, allFailTrace, failBlock, hrec]

theorem ttsAttemptsFrom_success (cfg : TtsConfig) (f : Nat → Bool) :
    ∀ r n k, n ≤ k → k < n + r → f k = true →
    (∀ j, n ≤ j → j < k → f j = false) →
    ttsAttemptsFrom cfg f n r =
      (allFailTrace cfg n (k - n) ++ [TtsAction.synthCall k], true) := by
  intro r
  induction r with
  | zero =>
    intro n k h1 h2 _ _
    omega
  | succ r ih =>
    intro n k h1 h2 hk hj
    by_cases hn : f n = true
    · have hkn : k = n := by
        by_contra hne
        have hlt : n < k := lt_of_le_of_ne h1 (Ne.symm hne)
        have := hj n le_rfl hlt
        rw [hn] at this
        exact Bool.noConfusion this
      subst hkn
      simp [ttsAttemptsFrom, hn, allFailTrace]
    · have hnf : f n = false := by
        cases hfn : f n
        · rfl
        · exact absurd hfn hn
      have hnk : n < k := by
        rcases Nat.lt_or_ge n k with h | h
        · exact h
        · exfalso
          have hkn : k = n := by omega
          rw [hkn] at hk
          rw [hk] at hnf
          exact Bool.noConfusion hnf
      have hrec := ih (n + 1) k (by omega) (by omega) hk
        (fun j ha hb => hj j (by omega) hb)
      have hsub : k - n = (k - (n + 1)) + 1 := by omega
      rw [hsub]
      simp [ttsAttemptsFrom, hnf, hrec, allFailTrace, failBlock]

/-! ## Claim theorems: synthesis & playback -/

/-- Claim C1: with ducking enabled, for every non-empty phrase processed by
`tts_worker`, on every exit path of the per-phrase block (success, FFmpeg
missing, synthesis failure after all retries, exception mid-playback) the
`finally` clause calls `start_input` to resume capture exactly once iff the
stop signal is not set at that point, and does not resume capture when the
stop signal is set. -/
theorem ducking_resume_unless_stopping (cfg : TtsConfig) (env : PhraseEnv)
    (hd : cfg.ducking = true) (ht : env.text ≠ "") :
    countAct isResumeCapture (handlePhrase cfg env) =
      if env.stopAtFinally then 0 else 1 := by
  unfold handlePhrase
  rw [if_neg ht, countAct_append, countAct_append]
  have hA : countAct isResumeCapture
      (if cfg.ducking then [TtsAction.duckSuspend] else []) = 0 := by
    cases cfg.ducking <;> rfl
  have hB := countAct_resume_bodyTrace cfg env
  rw [hA, hB]
  cases hstop : env.stopAtFinally
  · rw [if_pos ⟨hd, rfl⟩]
    decide
  · rw [if_neg (fun hcon => Bool.noConfusion hcon.2)]
    decide

/-- Witness for C1: a successful phrase with the stop signal clear resumes
capture once; a failing phrase (FFmpeg missing) with the stop signal set
does not resume. -/
theorem ducking_resume_unless_stopping_witness :
    countAct isResumeCapture (handlePhrase ⟨true, 3, 1⟩
      ⟨"hola mundo", true, fun n => n == 1, true, false⟩) = 1 ∧
    countAct isResumeCapture (handlePhrase ⟨true, 3, 1⟩
      ⟨"hola mundo", false, fun _ => false, false, true⟩) = 0 := by
  constructor
  · have h := ducking_resume_unless_stopping ⟨true, 3, 1⟩
      ⟨"hola mundo", true, fun n => n == 1, true, false⟩ rfl (by decide)
    simpa using h
  · have h := ducking_resume_unless_stopping ⟨true, 3, 1⟩
      ⟨"hola mundo", false, fun _ => false, false, true⟩ rfl (by decide)
    simpa using h

/-- Claim C3: `_tts_with_retries` makes at most `tts_max_retries` attempts;
when every attempt fails the trace is exactly `tts_max_retries` failure
blocks, each attempt `n` followed by a `tts_backoff * n` sleep, the
`RuntimeError` is caught by `tts_worker` which reports `[TTS ERROR]`
exactly once and continues with the next phrase; when the first success is
attempt `k ≤ tts_max_retries`, exactly `k` synthesis calls are made and no
further attempts occur. -/
theorem tts_retry_policy :
    (∀ (cfg : TtsConfig) (f : Nat → Bool),
      countAct isSynthCall (ttsWithRetries cfg f).1 ≤ cfg.ttsMaxRetries) ∧
    (∀ (cfg : TtsConfig) (f : Nat → Bool),
      (∀ i, 1 ≤ i → i ≤ cfg.ttsMaxRetries → f i = false) →
      ttsWithRetries cfg f = (allFailTrace cfg 1 cfg.ttsMaxRetries, false)) ∧
    (∀ (cfg : TtsConfig) (env : PhraseEnv), env.text ≠ "" →
      env.ffmpegAvailable = true →
      (∀ i, 1 ≤ i → i ≤ cfg.ttsMaxRetries → env.synthOk i = false) →
      countAct isLogError (handlePhrase cfg env) = 1 ∧
      ∀ es, ttsWorker cfg (env :: es) = handlePhrase cfg env ++ ttsWorker cfg es) ∧
    (∀ (cfg : TtsConfig) (f : Nat → Bool) (k : Nat), 1 ≤ k →
      k ≤ cfg.ttsMaxRetries → f k = true →
      (∀ j, 1 ≤ j → j < k → f j = false) →
      ttsWithRetries cfg f =
        (allFailTrace cfg 1 (k - 1) ++ [TtsAction.synthCall k], true) ∧
      countAct isSynthCall (ttsWithRetries cfg f).1 = k) := by
  have hfail : ∀ (cfg : TtsConfig) (f : Nat → Bool),
      (∀ i, 1 ≤ i → i ≤ cfg.ttsMaxRetries → f i = false) →
      ttsWithRetries cfg f = (allFailTrace cfg 1 cfg.ttsMaxRetries, false) := by
    intro cfg f h
    exact ttsAttemptsFrom_all_fail cfg f cfg.ttsMaxRetries 1
      (fun i h1 h2 => h i h1 (by omega))
  refine ⟨?_, hfail, ?_, ?_⟩
  · intro cfg f
    exact countAct_synth_attempts_le cfg f cfg.ttsMaxRetries 1
  · intro cfg env ht hf hall
    constructor
    · have hr := hfail cfg env.synthOk hall
      have hz : countAct isLogError (allFailTrace cfg 1 cfg.ttsMaxRetries) = 0 :=
        countAct_logError_allFail cfg cfg.ttsMaxRetries 1
      have hbt : bodyTrace cfg env =
          allFailTrace cfg 1 cfg.ttsMaxRetries ++ [TtsAction.logError] := by
        unfold bodyTrace
        rw [if_neg (by simp [hf]), hr]
        simp
      unfold handlePhrase
      rw [if_neg ht, hbt, countAct_append, countAct_append, countAct_append,
        hz]
      have hA : countAct isLogError
          (if cfg.ducking then [TtsAction.duckSuspend] else []) = 0 := by
        cases cfg.ducking <;> rfl
      have hC : countAct isLogError
          (if cfg.ducking = true ∧ env.stopAtFinally = false then
            [TtsAction.resumeCapture] else []) = 0 := by
        by_cases hc : cfg.ducking = true ∧ env.stopAtFinally = false
        · rw [if_pos hc]; rfl
        · rw [if_neg hc]; rfl
      rw [hA, hC]
      rfl
    · intro es
      rfl
  · intro cfg f k h1 h2 hk hj
    have hr := ttsAttemptsFrom_success cfg f cfg.ttsMaxRetries 1 k h1
      (by omega) hk hj
    refine ⟨hr, ?_⟩
    show countAct isSynthCall (ttsAttemptsFrom cfg f 1 cfg.ttsMaxRetries).1 = k
    rw [hr]
    show countAct isSynthCall
      (allFailTrace cfg 1 (k - 1) ++ [TtsAction.synthCall k]) = k
    rw [countAct_append, countAct_synth_allFail cfg (k - 1) 1,
      show countAct isSynthCall [TtsAction.synthCall k] = 1 from rfl]
    omega

/-- Witness for C3: with `tts_max_retries = 2`, `tts_backoff = 1` and a
synthesizer that always fails, the trace is two failure blocks with sleeps
of 1 and 2 seconds and one `[TTS ERROR]` report; with first success at
attempt 2 of 3, exactly the attempts 1 and 2 occur. -/
theorem tts_retry_policy_witness :
    ttsWithRetries ⟨true, 2, 1⟩ (fun _ => false) =
      ([TtsAction.synthCall 1, TtsAction.logRetry 1, TtsAction.sleep 1,
        TtsAction.synthCall 2, TtsAction.logRetry 2, TtsAction.sleep 2],
        false) ∧
    countAct isLogError (handlePhrase ⟨true, 2, 1⟩
      ⟨"hola mundo", true, fun _ => false, true, false⟩) = 1 ∧
    ttsWithRetries ⟨true, 3, 1⟩ (fun n => n == 2) =
      ([TtsAction.synthCall 1, TtsAction.logRetry 1, TtsAction.sleep 1,
        TtsAction.synthCall 2], true) ∧
    countAct isSynthCall (ttsWithRetries ⟨true, 3, 1⟩ (fun n => n == 2)).1
      = 2 := by
  refine ⟨?_, ?_, ?_, ?_⟩
  · have h := tts_retry_policy.2.1 ⟨true, 2, 1⟩ (fun _ => false)
      (fun i _ _ => rfl)
    rw [h]
    norm_num [allFailTrace, failBlock]
  · exact (tts_retry_policy.2.2.1 ⟨true, 2, 1⟩
      ⟨"hola mundo", true, fun _ => false, true, false⟩ (by decide) rfl
      (fun i _ _ => rfl)).1
  · have h := (tts_retry_policy.2.2.2 ⟨true, 3, 1⟩ (fun n => n == 2) 2
      (by omega) (by norm_num) rfl (by decide)).1
    rw [h]
    norm_num [allFailTrace, failBlock]
  · exact (tts_retry_policy.2.2.2 ⟨true, 3, 1⟩ (fun n => n == 2) 2
      (by omega) (by norm_num) rfl (by decide)).2

/-! ## Helper lemmas: segmentation side -/

/-- Every text in the phrase queue has length at least `m`. -/
def queueInv (m : Nat) (s : AsrState) : Prop :=
  ∀ t ∈ s.phraseQ, m ≤ t.length

theorem emitPhrase_short {cfg : AsrConfig} {s : AsrState} {x : String}
    (h : x.length < cfg.minPhraseLen) : emitPhrase cfg s x = s := by
  unfold emitPhrase
  rw [if_pos h]

theorem emitPhrase_long {cfg : AsrConfig} {s : AsrState} {x : String}
    (h : cfg.minPhraseLen ≤ x.length) :
    emitPhrase cfg s x =
      { s with finalsCb := s.finalsCb ++ [x], phraseQ := s.phraseQ ++ [x] } := by
  unfold emitPhrase
  rw [if_neg (Nat.not_lt.mpr h)]

theorem emitPhrase_finalResultCalls (cfg : AsrConfig) (s : AsrState)
    (x : String) : (emitPhrase cfg s x).finalResultCalls = s.finalResultCalls := by
  unfold emitPhrase
  split <;> rfl

theorem emitPhrase_inv {cfg : AsrConfig} {s : AsrState}
    (h : queueInv cfg.minPhraseLen s) (x : String) :
    queueInv cfg.minPhraseLen (emitPhrase cfg s x) := by
  unfold emitPhrase
  by_cases hx : x.length < cfg.minPhraseLen
  · rw [if_pos hx]
    exact h
  · rw [if_neg hx]
    intro t ht
    have ht2 : t ∈ s.phraseQ ++ [x] := ht
    rcases List.mem_append.mp ht2 with h1 | h1
    · exact h t h1
    · have hx2 : t = x := by simpa using h1
      subst hx2
      omega

theorem finalizeBySilence_of_not_seen {cfg : AsrConfig} {s : AsrState}
    {now : Time} {fin : String} (h : s.seg.speechSeen = false) :
    finalizeBySilence cfg s now fin = s := by
  unfold finalizeBySilence
  rw [if_pos h]

theorem finalizeBySilence_fires {cfg : AsrConfig} {s : AsrState}
    {now : Time} {fin : String} (h1 : s.seg.speechSeen = true)
    (h2 : cfg.silenceFinalizeSec ≤ now - s.seg.lastActivityTime) :
    finalizeBySilence cfg s now fin =
      resetParciales
        (if pyStrip fin ≠ "" then
          emitPhrase cfg { s with finalResultCalls := s.finalResultCalls + 1 }
            (pyStrip fin)
         else { s with finalResultCalls := s.finalResultCalls + 1 }) now := by
  unfold finalizeBySilence
  rw [if_neg (by simp [h1]), if_pos h2]

theorem finalizeBySilence_no_fire {cfg : AsrConfig} {s : AsrState}
    {now : Time} {fin : String}
    (h2 : ¬cfg.silenceFinalizeSec ≤ now - s.seg.lastActivityTime) :
    finalizeBySilence cfg s now fin = s := by
  unfold finalizeBySilence
  cases h1 : s.seg.speechSeen
  · rw [if_pos rfl]
  · rw [if_neg (by simp), if_neg h2]

theorem finalize_inv {cfg : AsrConfig} {s : AsrState}
    (h : queueInv cfg.minPhraseLen s) (now : Time) (fin : String) :
    queueInv cfg.minPhraseLen (finalizeBySilence cfg s now fin) := by
  cases h1 : s.seg.speechSeen
  · rw [finalizeBySilence_of_not_seen h1]
    exact h
  · by_cases h2 : cfg.silenceFinalizeSec ≤ now - s.seg.lastActivityTime
    · rw [finalizeBySilence_fires h1 h2]
      by_cases h3 : pyStrip fin ≠ ""
      · rw [if_pos h3]
        exact @emitPhrase_inv cfg
          { s with finalResultCalls := s.finalResultCalls + 1 } h (pyStrip fin)
      · rw [if_neg h3]
        exact h
    · rw [finalizeBySilence_no_fire h2]
      exact h

theorem procesarParcial_surfaced {cfg : AsrConfig} {s : AsrState}
    {now : Time} {p fin : String} (hp : p ≠ "")
    (hc : cfg.imprimirParciales = true ∧ p ≠ s.seg.ultimoParcial ∧
          cfg.parcialThrottleSec ≤ now - s.seg.ultimoParcialTime) :
    procesarParcial cfg s now p fin =
      { s with parcialesCb := s.parcialesCb ++ [p], seg := ⟨p, now, now, true⟩ } := by
  unfold procesarParcial
  rw [if_pos hp]
  dsimp only
  split
  next => rfl
  next hnc => exact absurd hc hnc

theorem procesarParcial_not_surfaced {cfg : AsrConfig} {s : AsrState}
    {now : Time} {p fin : String} (hp : p ≠ "")
    (hc : ¬(cfg.imprimirParciales = true ∧ p ≠ s.seg.ultimoParcial ∧
            cfg.parcialThrottleSec ≤ now - s.seg.ultimoParcialTime)) :
    procesarParcial cfg s now p fin =
      { s with seg := { s.seg with speechSeen := true,
                                   lastActivityTime := now } } := by
  unfold procesarParcial
  rw [if_pos hp]
  dsimp only
  split
  next hyes => exact absurd hyes hc
  next => rfl

theorem procesarParcial_empty {cfg : AsrConfig} {s : AsrState}
    {now : Time} {fin : String} :
    procesarParcial cfg s now "" fin = finalizeBySilence cfg s now fin := by
  unfold procesarParcial
  rw [if_neg (by simp)]

theorem emitPhrase_parcialesCb (cfg : AsrConfig) (s : AsrState) (x : String) :
    (emitPhrase cfg s x).parcialesCb = s.parcialesCb := by
  unfold emitPhrase
  split <;> rfl

theorem finalizeBySilence_parcialesCb (cfg : AsrConfig) (s : AsrState)
    (now : Time) (fin : String) :
    (finalizeBySilence cfg s now fin).parcialesCb = s.parcialesCb := by
  cases h1 : s.seg.speechSeen
  · rw [finalizeBySilence_of_not_seen h1]
  · by_cases h2 : cfg.silenceFinalizeSec ≤ now - s.seg.lastActivityTime
    · rw [finalizeBySilence_fires h1 h2]
      by_cases h3 : pyStrip fin ≠ ""
      · rw [if_pos h3]
        show (emitPhrase cfg
          { s with finalResultCalls := s.finalResultCalls + 1 }
          (pyStrip fin)).parcialesCb = s.parcialesCb
        rw [emitPhrase_parcialesCb]
      · rw [if_neg h3]
        rfl
    · rw [finalizeBySilence_no_fire h2]

theorem procesarParcial_cb_le (cfg : AsrConfig) (s : AsrState) (now : Time)
    (p fin : String) :
    (procesarParcial cfg s now p fin).parcialesCb.length
      ≤ s.parcialesCb.length + 1 := by
  by_cases hp : p = ""
  · subst hp
    rw [procesarParcial_empty, finalizeBySilence_parcialesCb]
    omega
  · by_cases hc : cfg.imprimirParciales = true ∧ p ≠ s.seg.ultimoParcial ∧
        cfg.parcialThrottleSec ≤ now - s.seg.ultimoParcialTime
    · rw [procesarParcial_surfaced hp hc]
      simp
    · rw [procesarParcial_not_surfaced hp hc]
      simp

theorem procesar_inv {cfg : AsrConfig} {s : AsrState}
    (h : queueInv cfg.minPhraseLen s) (now : Time) (p fin : String) :
    queueInv cfg.minPhraseLen (procesarParcial cfg s now p fin) := by
  by_cases hp : p = ""
  · subst hp
    rw [procesarParcial_empty]
    exact finalize_inv h now fin
  · by_cases hc : cfg.imprimirParciales = true ∧ p ≠ s.seg.ultimoParcial ∧
        cfg.parcialThrottleSec ≤ now - s.seg.ultimoParcialTime
    · rw [procesarParcial_surfaced hp hc]
      exact h
    · rw [procesarParcial_not_surfaced hp hc]
      exact h

theorem asrStep_inv {cfg : AsrConfig} {s : AsrState}
    (h : queueInv cfg.minPhraseLen s) (ev : AsrEvent) :
    queueInv cfg.minPhraseLen (asrStep cfg s ev) := by
  cases ev with
  | finalRes raw now =>
    show queueInv cfg.minPhraseLen
      (resetParciales (if pyStrip raw ≠ "" then emitPhrase cfg s (pyStrip raw)
        else s) now)
    by_cases h3 : pyStrip raw ≠ ""
    · rw [if_pos h3]
      exact emitPhrase_inv h (pyStrip raw)
    · rw [if_neg h3]
      exact h
  | parcialRes p fin now => exact procesar_inv h now p fin
  | colaVacia fin now => exact finalize_inv h now fin

theorem asrRun_inv {cfg : AsrConfig} :
    ∀ (evs : List AsrEvent) (s : AsrState), queueInv cfg.minPhraseLen s →
      queueInv cfg.minPhraseLen (asrRun cfg s evs) := by
  intro evs
  induction evs with
  | nil => intro s h; exact h
  | cons e es ih =>
    intro s h
    exact ih (asrStep cfg s e) (asrStep_inv h e)

theorem asrEpilogue_inv {cfg : AsrConfig} {s : AsrState}
    (h : queueInv cfg.minPhraseLen s) (fin : String) :
    queueInv cfg.minPhraseLen (asrEpilogue cfg s fin) := by
  unfold asrEpilogue
  dsimp only
  by_cases h3 : pyStrip fin ≠ ""
  · rw [if_pos h3]
    exact @emitPhrase_inv cfg
      { s with finalResultCalls := s.finalResultCalls + 1 } h (pyStrip fin)
  · rw [if_neg h3]
    exact h

/-! ## Claim theorems: segmentation side -/

/-- Claim C2: `_emit_phrase` discards any candidate text shorter than
`min_phrase_len` without enqueueing it or invoking `on_final`; therefore
along any run of the `asr_worker` loop (including the shutdown flush),
every phrase ever present in the phrase queue has length at least
`min_phrase_len`. -/
theorem phrase_queue_min_len :
    (∀ (cfg : AsrConfig) (s : AsrState) (t : String),
      t.length < cfg.minPhraseLen → emitPhrase cfg s t = s) ∧
    (∀ (cfg : AsrConfig) (s0 : AsrState) (evs : List AsrEvent) (fin : String),
      (∀ t ∈ s0.phraseQ, cfg.minPhraseLen ≤ t.length) →
      ∀ t ∈ (asrEpilogue cfg (asrRun cfg s0 evs) fin).phraseQ,
        cfg.minPhraseLen ≤ t.length) := by
  constructor
  · intro cfg s t h
    exact emitPhrase_short h
  · intro cfg s0 evs fin h
    exact asrEpilogue_inv (asrRun_inv evs s0 h) fin

/-- Witness for C2: starting from an empty queue, a run containing a long
final, a too-short final and a shutdown flush of a short text leaves only
phrases of length ≥ 6 in the queue. -/
theorem phrase_queue_min_len_witness :
    (emitPhrase ⟨6, true, 4/5, 1/4⟩ ⟨⟨"", 0, 0, false⟩, [], [], [], 0⟩ "hola")
      = ⟨⟨"", 0, 0, false⟩, [], [], [], 0⟩ ∧
    ∀ t ∈ (asrEpilogue ⟨6, true, 4/5, 1/4⟩
        (asrRun ⟨6, true, 4/5, 1/4⟩ ⟨⟨"", 0, 0, false⟩, [], [], [], 0⟩
          [AsrEvent.finalRes "hola mundo" 0, AsrEvent.finalRes "si" 1])
        "no").phraseQ, 6 ≤ t.length := by
  constructor
  · exact phrase_queue_min_len.1 ⟨6, true, 4/5, 1/4⟩
      ⟨⟨"", 0, 0, false⟩, [], [], [], 0⟩ "hola" (by decide)
  · exact phrase_queue_min_len.2 ⟨6, true, 4/5, 1/4⟩
      ⟨⟨"", 0, 0, false⟩, [], [], [], 0⟩
      [AsrEvent.finalRes "hola mundo" 0, AsrEvent.finalRes "si" 1] "no"
      (by simp)

/-- Claim C4: `_finalize_by_silence` changes nothing unless speech was seen
and at least `silence_finalize_sec` of inactivity elapsed; when it fires it
requests the recognizer's final result exactly once, emits the stripped
text as a phrase when it is non-empty and long enough, resets the segment
state (speech-seen cleared, last partial cleared, activity time set to
now), and a second silence check before any new activity leaves the state
unchanged (no re-emission). -/
theorem silence_finalize_once (cfg : AsrConfig) (s : AsrState)
    (now now2 : Time) (fin fin2 : String) :
    (¬(s.seg.speechSeen = true ∧
        cfg.silenceFinalizeSec ≤ now - s.seg.lastActivityTime) →
      finalizeBySilence cfg s now fin = s) ∧
    (s.seg.speechSeen = true →
      cfg.silenceFinalizeSec ≤ now - s.seg.lastActivityTime →
      (finalizeBySilence cfg s now fin).finalResultCalls
          = s.finalResultCalls + 1 ∧
      (pyStrip fin ≠ "" → cfg.minPhraseLen ≤ (pyStrip fin).length →
        (finalizeBySilence cfg s now fin).phraseQ
          = s.phraseQ ++ [pyStrip fin]) ∧
      (finalizeBySilence cfg s now fin).seg.speechSeen = false ∧
      (finalizeBySilence cfg s now fin).seg.ultimoParcial = "" ∧
      (finalizeBySilence cfg s now fin).seg.lastActivityTime = now ∧
      finalizeBySilence cfg (finalizeBySilence cfg s now fin) now2 fin2
          = finalizeBySilence cfg s now fin) := by
  constructor
  · intro hno
    cases h1 : s.seg.speechSeen
    · exact finalizeBySilence_of_not_seen h1
    · have h2 : ¬cfg.silenceFinalizeSec ≤ now - s.seg.lastActivityTime :=
        fun hc => hno ⟨h1, hc⟩
      exact finalizeBySilence_no_fire h2
  · intro h1 h2
    rw [finalizeBySilence_fires h1 h2]
    refine ⟨?_, ?_, rfl, rfl, rfl, ?_⟩
    · by_cases h3 : pyStrip fin ≠ ""
      · rw [if_pos h3]
        show (emitPhrase cfg
          { s with finalResultCalls := s.finalResultCalls + 1 }
          (pyStrip fin)).finalResultCalls = s.finalResultCalls + 1
        rw [emitPhrase_finalResultCalls]
      · rw [if_neg h3]
        rfl
    · intro h3 h4
      rw [if_pos h3, emitPhrase_long h4]
      rfl
    · exact finalizeBySilence_of_not_seen rfl

/-- Witness for C4: a non-firing check (inactivity shorter than the
threshold) leaves the state untouched; a firing check with the long final
text `"hola mundo"` appends exactly that phrase. -/
theorem silence_finalize_once_witness :
    finalizeBySilence ⟨6, true, 4/5, 1/4⟩ ⟨⟨"", 0, 0, true⟩, [], [], [], 0⟩
      (1/2) "x" = ⟨⟨"", 0, 0, true⟩, [], [], [], 0⟩ ∧
    (finalizeBySilence ⟨6, true, 4/5, 1/4⟩ ⟨⟨"", 0, 0, true⟩, [], [], [], 0⟩
      1 "hola mundo").phraseQ = ["hola mundo"] := by
  constructor
  · exact (silence_finalize_once ⟨6, true, 4/5, 1/4⟩
      ⟨⟨"", 0, 0, true⟩, [], [], [], 0⟩ (1/2) 0 "x" "x").1
      (by intro h; exact absurd h.2 (by norm_num))
  · have h := ((silence_finalize_once ⟨6, true, 4/5, 1/4⟩
      ⟨⟨"", 0, 0, true⟩, [], [], [], 0⟩ 1 0 "hola mundo" "x").2
      rfl (by norm_num)).2.1 (by decide) (by decide)
    rw [h]
    decide

/-- Claim C5: every non-empty partial refreshes `_last_activity_time`; a
partial is surfaced to `on_partial` only if its text differs from the last
surfaced partial and at least `partial_throttle_sec` elapsed since the last
surfaced partial; consequently, of two non-empty partials arriving within
`partial_throttle_sec` of each other at most one is surfaced. -/
theorem parcial_throttle (cfg : AsrConfig) (s : AsrState)
    (now now2 : Time) (p p2 fin fin2 : String) :
    (p ≠ "" → (procesarParcial cfg s now p fin).seg.lastActivityTime = now) ∧
    (p ≠ "" → (procesarParcial cfg s now p fin).parcialesCb ≠ s.parcialesCb →
      p ≠ s.seg.ultimoParcial ∧
      cfg.parcialThrottleSec ≤ now - s.seg.ultimoParcialTime) ∧
    (p ≠ "" → p2 ≠ "" → now ≤ now2 →
      now2 - now < cfg.parcialThrottleSec →
      (procesarParcial cfg (procesarParcial cfg s now p fin)
        now2 p2 fin2).parcialesCb.length ≤ s.parcialesCb.length + 1) := by
  refine ⟨?_, ?_, ?_⟩
  · intro hp
    by_cases hc : cfg.imprimirParciales = true ∧ p ≠ s.seg.ultimoParcial ∧
        cfg.parcialThrottleSec ≤ now - s.seg.ultimoParcialTime
    · rw [procesarParcial_surfaced hp hc]
    · rw [procesarParcial_not_surfaced hp hc]
  · intro hp hne
    by_cases hc : cfg.imprimirParciales = true ∧ p ≠ s.seg.ultimoParcial ∧
        cfg.parcialThrottleSec ≤ now - s.seg.ultimoParcialTime
    · exact ⟨hc.2.1, hc.2.2⟩
    · rw [procesarParcial_not_surfaced hp hc] at hne
      exact absurd rfl hne
  · intro hp hp2 hle hlt
    by_cases hc1 : cfg.imprimirParciales = true ∧ p ≠ s.seg.ultimoParcial ∧
        cfg.parcialThrottleSec ≤ now - s.seg.ultimoParcialTime
    · rw [procesarParcial_surfaced hp hc1]
      rw [procesarParcial_not_surfaced hp2
        (fun hcon => absurd hcon.2.2 (not_le.mpr hlt))]
      simp
    · rw [procesarParcial_not_surfaced hp hc1]
      exact procesarParcial_cb_le cfg _ now2 p2 fin2

/-- Witness for C5: with throttle 1/4, a first partial at time 0 (surfaced)
and a second at time 1/8 yield at most one new surfaced partial, and the
activity time is refreshed. -/
theorem parcial_throttle_witness :
    (procesarParcial ⟨6, true, 4/5, 1/4⟩ ⟨⟨"", -1, 0, false⟩, [], [], [], 0⟩
      0 "ho" "x").seg.lastActivityTime = 0 ∧
    (procesarParcial ⟨6, true, 4/5, 1/4⟩
      (procesarParcial ⟨6, true, 4/5, 1/4⟩ ⟨⟨"", -1, 0, false⟩, [], [], [], 0⟩
        0 "ho" "x") (1/8) "hola" "x").parcialesCb.length ≤ 0 + 1 := by
  constructor
  · exact (parcial_throttle ⟨6, true, 4/5, 1/4⟩
      ⟨⟨"", -1, 0, false⟩, [], [], [], 0⟩ 0 0 "ho" "ho" "x" "x").1 (by decide)
  · exact (parcial_throttle ⟨6, true, 4/5, 1/4⟩
      ⟨⟨"", -1, 0, false⟩, [], [], [], 0⟩ 0 (1/8) "ho" "hola" "x" "x").2.2
      (by decide) (by decide) (by norm_num) (by norm_num)

/-- Claim C9: when the stop signal ends the `asr_worker` loop, the epilogue
requests the recognizer's final result exactly once more, and the stripped
text is both reported via `on_final` and enqueued as one last phrase iff it
is non-empty and at least `min_phrase_len` long; otherwise nothing is
emitted. -/
theorem shutdown_flush (cfg : AsrConfig) (s : AsrState) (finText : String) :
    (asrEpilogue cfg s finText).finalResultCalls = s.finalResultCalls + 1 ∧
    (asrEpilogue cfg s finText).phraseQ = s.phraseQ ++
      (if pyStrip finText ≠ "" ∧ cfg.minPhraseLen ≤ (pyStrip finText).length
       then [pyStrip finText] else []) ∧
    (asrEpilogue cfg s finText).finalsCb = s.finalsCb ++
      (if pyStrip finText ≠ "" ∧ cfg.minPhraseLen ≤ (pyStrip finText).length
       then [pyStrip finText] else []) := by
  unfold asrEpilogue
  dsimp only
  by_cases h1 : pyStrip finText ≠ ""
  · by_cases h2 : cfg.minPhraseLen ≤ (pyStrip finText).length
    · rw [if_pos h1, emitPhrase_long h2, if_pos ⟨h1, h2⟩]
      exact ⟨rfl, rfl, rfl⟩
    · rw [if_pos h1, emitPhrase_short (Nat.not_le.mp h2),
        if_neg (fun hcc => h2 hcc.2)]
      exact ⟨rfl, by simp, by simp⟩
  · rw [if_neg h1, if_neg (fun hcc => h1 hcc.1)]
    exact ⟨rfl, by simp, by simp⟩

/-- Claim C10: when the silence check fires but the recognizer's stripped
final text is empty or shorter than `min_phrase_len`, the segment state is
still fully reset (speech-seen cleared, last partial cleared, activity time
set to now) while nothing is enqueued and `on_final` is not invoked: the
pending utterance is silently discarded. -/
theorem silence_discard_short (cfg : AsrConfig) (s : AsrState) (now : Time)
    (fin : String) (hs : s.seg.speechSeen = true)
    (ht : cfg.silenceFinalizeSec ≤ now - s.seg.lastActivityTime)
    (hshort : pyStrip fin = "" ∨ (pyStrip fin).length < cfg.minPhraseLen) :
    (finalizeBySilence cfg s now fin).phraseQ = s.phraseQ ∧
    (finalizeBySilence cfg s now fin).finalsCb = s.finalsCb ∧
    (finalizeBySilence cfg s now fin).seg.speechSeen = false ∧
    (finalizeBySilence cfg s now fin).seg.ultimoParcial = "" ∧
    (finalizeBySilence cfg s now fin).seg.lastActivityTime = now := by
  rw [finalizeBySilence_fires hs ht]
  by_cases h3 : pyStrip fin = ""
  · rw [if_neg (fun hcc => hcc h3)]
    exact ⟨rfl, rfl, rfl, rfl, rfl⟩
  · have h4 : (pyStrip fin).length < cfg.minPhraseLen := by
      rcases hshort with h | h
      · exact absurd h h3
      · exact h
    rw [if_pos h3, emitPhrase_short h4]
    exact ⟨rfl, rfl, rfl, rfl, rfl⟩

/-- Witness for C10: a firing silence check whose forced final text `"hi"`
is shorter than `min_phrase_len = 6` enqueues nothing, invokes no callback,
and resets the whole segment state. -/
theorem silence_discard_short_witness :
    (finalizeBySilence ⟨6, true, 4/5, 1/4⟩ ⟨⟨"ho", 0, 0, true⟩, [], [], [], 0⟩
      1 "hi").phraseQ = [] ∧
    (finalizeBySilence ⟨6, true, 4/5, 1/4⟩ ⟨⟨"ho", 0, 0, true⟩, [], [], [], 0⟩
      1 "hi").finalsCb = [] ∧
    (finalizeBySilence ⟨6, true, 4/5, 1/4⟩ ⟨⟨"ho", 0, 0, true⟩, [], [], [], 0⟩
      1 "hi").seg.speechSeen = false ∧
    (finalizeBySilence ⟨6, true, 4/5, 1/4⟩ ⟨⟨"ho", 0, 0, true⟩, [], [], [], 0⟩
      1 "hi").seg.ultimoParcial = "" ∧
    (finalizeBySilence ⟨6, true, 4/5, 1/4⟩ ⟨⟨"ho", 0, 0, true⟩, [], [], [], 0⟩
      1 "hi").seg.lastActivityTime = 1 :=
  silence_discard_short ⟨6, true, 4/5, 1/4⟩ ⟨⟨"ho", 0, 0, true⟩, [], [], [], 0⟩
    1 "hi" rfl (by norm_num) (Or.inr (by decide))

/-! ## Helper lemmas: lifecycle -/

theorem drain_eq_nil {α : Type} (l : List α) : drain l = [] := by
  induction l with
  | nil => rfl
  | cons a t ih => simpa [drain] using ih

/-! ## Claim theorems: lifecycle -/

/-- Claim C6: `stop` sets the stop event, stops the frame source, and
leaves both queues empty; it is idempotent, and — being defined for every
state, including one where capture never started (`stream_in = None`) — it
is safe to call repeatedly or on a never-started engine (every fallible
call in the source `stop` is wrapped in `try`/`except`, so the model is a
total function). -/
theorem stop_drains_idempotent (s : EngineState) :
    (stopEngine s).stopEvent = true ∧
    (stopEngine s).streamIn = none ∧
    (stopEngine s).audioQ = [] ∧
    (stopEngine s).phraseQL = [] ∧
    stopEngine (stopEngine s) = stopEngine s := by
  obtain ⟨se, si, so, aq, pq, ml, rl, ta, tt⟩ := s
  cases si <;> simp [stopEngine, stopInput, drain_eq_nil]

/-- Claim C7: when the model or recognizer is not loaded, `start` raises
`RuntimeError("Modelo Vosk no cargado.")` and leaves the state completely
unchanged: no stream is opened, no thread is spawned, the queues are
untouched. -/
theorem start_fails_fast (s : EngineState)
    (h : s.modelLoaded = false ∨ s.recognizerLoaded = false) :
    startEngine s = (Except.error "Modelo Vosk no cargado.", s) := by
  unfold startEngine
  rw [if_pos h]

/-- Witness for C7: starting a freshly constructed engine with no model
loaded raises and changes nothing. -/
theorem start_fails_fast_witness :
    startEngine ⟨false, none, 0, [], [], false, false, false, false⟩ =
      (Except.error "Modelo Vosk no cargado.",
        (⟨false, none, 0, [], [], false, false, false, false⟩ : EngineState)) :=
  start_fails_fast ⟨false, none, 0, [], [], false, false, false, false⟩
    (Or.inl rfl)

/-- Counterexample to C8: with capture already running (handle `0` stored,
one stream opened so far), `start_input` is not a no-op — it opens a second
input stream and replaces the stored handle. -/
theorem start_input_not_noop_cx :
    startInput ⟨false, some 0, 1, [], [], true, true, true, true⟩ ≠
      (⟨false, some 0, 1, [], [], true, true, true, true⟩ : EngineState) ∧
    (startInput
      ⟨false, some 0, 1, [], [], true, true, true, true⟩).streamsOpened = 2 ∧
    (startInput
      ⟨false, some 0, 1, [], [], true, true, true, true⟩).streamIn = some 1 := by
  refine ⟨?_, rfl, rfl⟩
  decide

/-- Claim C8 as amended: `stop_input` when capture is already stopped is a
no-op, but `start_input` performs no already-running check: it
unconditionally opens and starts a new input stream and overwrites the
stored handle. -/
theorem input_idempotence_amended :
    (∀ s : EngineState, s.streamIn = none → stopInput s = s) ∧
    (∀ s : EngineState, (startInput s).streamsOpened = s.streamsOpened + 1 ∧
      (startInput s).streamIn = some s.streamsOpened) := by
  constructor
  · intro s h
    unfold stopInput
    rw [h]
  · intro s
    exact ⟨rfl, rfl⟩

/-- Witness for C8 amended: on a never-started engine `stop_input` is the
identity, and `start_input` opens stream 0. -/
theorem input_idempotence_amended_witness :
    stopInput ⟨false, none, 0, [], [], false, false, false, false⟩ =
      (⟨false, none, 0, [], [], false, false, false, false⟩ : EngineState) ∧
    (startInput
      ⟨false, none, 0, [], [], false, false, false, false⟩).streamsOpened = 1 := by
  constructor
  · exact input_idempotence_amended.1
      ⟨false, none, 0, [], [], false, false, false, false⟩ rfl
  · have h := (input_idempotence_amended.2
      ⟨false, none, 0, [], [], false, false, false, false⟩).1
    simpa using h

end Voz
